import Mathlib

/-!
Verification model of the patient-record application (hms/app).

The core pieces embedded here, translated from src/hms/app/db_services.py and
src/hms/app/crud_operations.py:

* Python `int(s)` applied to a free-text age, as used by
  `calculate_batch_average_age` and `is_valid_age` (`pyParseInt`).  The model
  covers leading/trailing whitespace, an optional sign and a non-empty digit
  run; the digit-grouping underscores that CPython also accepts are not
  modelled, and no property below depends on them.  A Python `None` age
  raises `TypeError`, which the code catches alongside `ValueError`; ages are
  therefore modelled as `Option String` with `parseAge none = none`.
* The aggregation engine: `calculate_batch_average_age` (per-batch sum/count
  fold), `calculate_average_age` (batched fan-out over slices
  `patients[i : i + batch_size]` for `i = 0, batch_size, 2*batch_size, ...`,
  then a join summing the batch results) and the single-pass
  `calculate_average_ages`.  Worker results are joined in submission order in
  the source; since the join is a sum, the model keeps that order.  Division
  is modelled over the rationals: in the source every accumulation is exact
  Python integer arithmetic and a single float division happens at the end.
  `batch_size = 0` makes the source `range` raise `ValueError`; the model is
  only claimed faithful for `batch_size ≥ 1`.
* The record store: a SQLite table `(id AUTOINCREMENT, name, age, disease)`
  modelled as a list of rows in insertion order plus the autoincrement
  counter.  Each CRUD service wraps its work in try/except and maps any
  storage exception to a fallback value (None, [], or 0); the possibility of
  a storage exception is modelled by an explicit `fail` flag on each
  operation.
* The HTTP average-age handler `get_average_age`, returning
  (rounded average, valid patient count, total patients), with Python
  `round(x, 2)` modelled as rounding to the nearest multiple of 1/100
  (`round2`).  CPython rounds exact halves to even; the models differ only at
  exact midpoints, and no property below sits at a midpoint.
-/

namespace HMS

/-- Whitespace characters stripped by Python `int(str)` before parsing
(ASCII subset). -/
def isPySpace (c : Char) : Bool :=
  c = ' ' || c = '\t' || c = '\n' || c = '\r' || c = '\x0b' || c = '\x0c'

/-- Strip leading and trailing whitespace from a character list. -/
def stripChars (cs : List Char) : List Char :=
  ((cs.dropWhile isPySpace).reverse.dropWhile isPySpace).reverse

/-- Accumulate a non-empty run of decimal digits; fails on any non-digit. -/
def digitsToNat : List Char → ℕ → Option ℕ
  | [], acc => some acc
  | c :: cs, acc =>
      if c.isDigit then digitsToNat cs (acc * 10 + (c.toNat - 48)) else none

/-- Parse a non-empty all-digit character run as a natural number. -/
def parseUnsigned (cs : List Char) : Option ℕ :=
  match cs with
  | [] => none
  | _ => digitsToNat cs 0

/-- Model of Python `int(s)` on a string: strip whitespace, optional sign,
then a non-empty digit run; `none` models the `ValueError` raised
otherwise. -/
def pyParseInt (s : String) : Option ℤ :=
  match stripChars s.toList with
  | [] => none
  | c :: cs =>
      if c = '+' then (parseUnsigned cs).map (fun n => (n : ℤ))
      else if c = '-' then (parseUnsigned cs).map (fun n => -(n : ℤ))
      else (parseUnsigned (c :: cs)).map (fun n => (n : ℤ))

/-- Patient object of model.py: the age field may be a string or Python
`None`; the id is assigned by the store and is `none` before creation. -/
structure Patient where
  id : Option ℤ
  name : String
  age : Option String
  disease : String
deriving DecidableEq, Repr

/-- Age conversion as performed inside the aggregation loops: `int(p.age)`
with `ValueError` and `TypeError` both caught (`none`). -/
def parseAge (a : Option String) : Option ℤ :=
  match a with
  | some s => pyParseInt s
  | none => none

/-- Body of the aggregation loop of `calculate_batch_average_age`: add a
parseable age to the running (sum, count), skip an unparseable one. -/
def ageStep (acc : ℤ × ℕ) (p : Patient) : ℤ × ℕ :=
  match parseAge p.age with
  | some n => (acc.1 + n, acc.2 + 1)
  | none => acc

/-- db_services.calculate_batch_average_age: fold the batch to
(sum of parseable ages, count of parseable ages). -/
def calculate_batch_average_age (patients : List Patient) : ℤ × ℕ :=
  patients.foldl ageStep (0, 0)

/-- Batch slicing of `calculate_average_age`: the slices
`patients[i : i + b]` for `i = 0, b, 2b, ...`.  Structural recursion on a
fuel argument that starts at the list length; each step consumes the first
`b` elements, so fuel `≥ length` is always enough when `b ≥ 1`. -/
def batchesAux : ℕ → ℕ → List Patient → List (List Patient)
  | _, _, [] => []
  | 0, _, _ :: _ => []
  | fuel + 1, b, l => l.take b :: batchesAux fuel b (l.drop b)

/-- The list of batches dispatched by `calculate_average_age` for a given
batch size (meaningful for `b ≥ 1`; the source raises on `b = 0`). -/
def batches (b : ℕ) (l : List Patient) : List (List Patient) :=
  if b = 0 then [] else batchesAux l.length b l

/-- Join step of `calculate_average_age`: add one batch result into the
running totals. -/
def joinStep (acc : ℤ × ℕ) (r : ℤ × ℕ) : ℤ × ℕ :=
  (acc.1 + r.1, acc.2 + r.2)

/-- db_services.calculate_average_age restricted to its pure content: the
record list argument stands for the `read_all_patients()` result.  Empty
list: early `None`.  Otherwise fan out one worker per batch, join all
(sum, count) pairs, and return `None` when no age parsed, else the exact
quotient. -/
def calculate_average_age (batch_size : ℕ) (patients : List Patient) :
    Option ℚ :=
  if patients = [] then none
  else
    let results := (batches batch_size patients).map calculate_batch_average_age
    let totals := results.foldl joinStep (0, 0)
    if totals.2 = 0 then none
    else some ((totals.1 : ℚ) / (totals.2 : ℚ))

/-- db_services.calculate_average_ages: the non-concurrent single pass, same
per-record loop body, then the same zero-count guard and division. -/
def calculate_average_ages (patients : List Patient) : Option ℚ :=
  if patients = [] then none
  else
    let r := patients.foldl ageStep (0, 0)
    if r.2 = 0 then none
    else some ((r.1 : ℚ) / (r.2 : ℚ))

/-- The ages of a record list that parse as integers, in order (spec-side
description of what the aggregation may use). -/
def validAges (l : List Patient) : List ℤ :=
  l.filterMap (fun p => parseAge p.age)

/-- One row of the `patients` table: all columns NOT NULL, id the
autoincrement primary key. -/
structure Row where
  id : ℤ
  name : String
  age : String
  disease : String
deriving DecidableEq, Repr

/-- State of the SQLite store: the table rows in insertion order plus the
AUTOINCREMENT counter (SQLite assigns `lastrowid` monotonically; starts
at 1 on a fresh table). -/
structure DB where
  rows : List Row
  nextId : ℤ
deriving DecidableEq, Repr

/-- A freshly created database: empty table, first id will be 1. -/
def DB.empty : DB := ⟨[], 1⟩

/-- Reconstruct the Patient object from a fetched row, as the CRUD services
do with `Patient(*row)`. -/
def rowToPatient (r : Row) : Patient :=
  ⟨some r.id, r.name, some r.age, r.disease⟩

/-- db_services.create_patient: insert `(name, age, disease)` ignoring any
caller-supplied id; the store assigns `lastrowid`.  `fail` models any
storage exception, caught and mapped to `None` with no row inserted; an age
of Python `None` violates the NOT NULL column constraint, which is an
exception on the same path. -/
def create_patient (db : DB) (p : Patient) (fail : Bool) : DB × Option ℤ :=
  if fail then (db, none)
  else
    match p.age with
    | none => (db, none)
    | some a =>
        (⟨db.rows ++ [⟨db.nextId, p.name, a, p.disease⟩], db.nextId + 1⟩,
         some db.nextId)

/-- db_services.read_all_patients: all rows in insertion order; any storage
exception is caught and an empty list returned. -/
def read_all_patients (db : DB) (fail : Bool) : List Patient :=
  if fail then [] else db.rows.map rowToPatient

/-- db_services.read_patient_by_id: point lookup by id; absence and any
storage exception both yield `none`. -/
def read_patient_by_id (db : DB) (i : ℤ) (fail : Bool) : Option Patient :=
  if fail then none
  else (db.rows.find? (fun r => decide (r.id = i))).map rowToPatient

/-- db_services.update_patient: `UPDATE ... WHERE id=?` returning the number
of matched rows.  A `None` id matches nothing (SQL NULL comparison); a
`None` age either matches nothing (rowcount 0) or raises the NOT NULL
constraint, which the except branch maps to 0 with the transaction rolled
back — in both cases `(db, 0)`.  `fail` models any other storage exception,
also mapped to 0. -/
def update_patient (db : DB) (p : Patient) (fail : Bool) : DB × ℕ :=
  if fail then (db, 0)
  else
    match p.id with
    | none => (db, 0)
    | some i =>
        match p.age with
        | none => (db, 0)
        | some a =>
            (⟨db.rows.map (fun r =>
                if r.id = i then ⟨r.id, p.name, a, p.disease⟩ else r),
              db.nextId⟩,
             db.rows.countP (fun r => decide (r.id = i)))

/-- db_services.delete_patient: `DELETE FROM patients WHERE id=?` returning
the number of deleted rows; any storage exception is caught and mapped
to 0. -/
def delete_patient (db : DB) (i : ℤ) (fail : Bool) : DB × ℕ :=
  if fail then (db, 0)
  else
    (⟨db.rows.filter (fun r => decide (¬ r.id = i)), db.nextId⟩,
     db.rows.countP (fun r => decide (r.id = i)))

/-- A sequence of successful Create calls (no storage failure). -/
def createMany (db : DB) (inputs : List Patient) : DB :=
  inputs.foldl (fun d p => (create_patient d p false).1) db

/-- crud_operations.is_valid_age: `int(age)` under try/except. -/
def is_valid_age (a : Option String) : Bool :=
  (parseAge a).isSome

/-- Round a rational to 2 decimal places, modelling Python `round(x, 2)`
(nearest multiple of 1/100; CPython breaks exact ties to even, this model
half-up — they differ only at exact midpoints). -/
def round2 (q : ℚ) : ℚ :=
  ((round (q * 100) : ℤ) : ℚ) / 100

/-- crud_operations.get_average_age: the /patients/average-age handler.
Returns `none` for the 404 branch (aggregation yielded no valid data),
otherwise the JSON payload `(average_age, patient_count, total_patients)`.
Both the aggregation and the count read the same store state. -/
def get_average_age (db : DB) : Option (ℚ × ℕ × ℕ) :=
  match calculate_average_ages (read_all_patients db false) with
  | none => none
  | some avg =>
      let patients := read_all_patients db false
      some (round2 avg,
            patients.countP (fun p => is_valid_age p.age),
            patients.length)

/-- Rows produced by a run of successful creates starting at a given
autoincrement counter value (proof-side description of the store effect). -/
def assignRows (n : ℤ) : List Patient → List Row
  | [] => []
  | p :: ps => ⟨n, p.name, p.age.getD "", p.disease⟩ :: assignRows (n + 1) ps

/-- The worked example of the spec: ages "45", "32", "60" and one
unparsable age. -/
def exampleAges : List Patient :=
  [⟨none, "John Doe", some "45", "Hypertension"⟩,
   ⟨none, "Jane Smith", some "32", "Diabetes"⟩,
   ⟨none, "Alice Johnson", some "60", "Arthritis"⟩,
   ⟨none, "Bob Brown", some "invalid", "Asthma"⟩]

/-- A record list with no parseable age at all. -/
def exampleNoValid : List Patient :=
  [⟨none, "Ann", some "unknown", "Flu"⟩, ⟨none, "Ben", none, "Cold"⟩]

/-- A concrete input list for the create/read-all scenario; the first entry
carries a caller-supplied id that the store must ignore. -/
def exampleInputs : List Patient :=
  [⟨some 99, "John Doe", some "45", "Hypertension"⟩,
   ⟨none, "Jane Smith", some "32", "Diabetes"⟩,
   ⟨none, "Bob Brown", some "invalid", "Asthma"⟩]

/-- A concrete store state used to instantiate the store theorems. -/
def exampleDB : DB :=
  ⟨[⟨1, "John Doe", "45", "Hypertension"⟩,
    ⟨2, "Jane Smith", "32", "Diabetes"⟩,
    ⟨3, "Alice Johnson", "60", "Arthritis"⟩,
    ⟨4, "Bob Brown", "invalid", "Asthma"⟩], 5⟩

lemma foldl_ageStep_shift (l : List Patient) (acc : ℤ × ℕ) :
    l.foldl ageStep acc =
      (acc.1 + (l.foldl ageStep (0, 0)).1, acc.2 + (l.foldl ageStep (0, 0)).2) := by
  induction l generalizing acc with
  | nil => simp
  | cons p l ih =>
      simp only [List.foldl_cons]
      cases hp : parseAge p.age with
      | none =>
          rw [show ageStep acc p = acc from by simp [ageStep, hp],
              show ageStep (0, 0) p = (0, 0) from by simp [ageStep, hp]]
          exact ih acc
      | some n =>
          rw [show ageStep acc p = (acc.1 + n, acc.2 + 1) from by simp [ageStep, hp],
              show ageStep (0, 0) p = (n, 1) from by simp [ageStep, hp],
              ih (acc.1 + n, acc.2 + 1), ih (n, 1)]
          simp [add_assoc]

lemma calculate_batch_average_age_append (l1 l2 : List Patient) :
    calculate_batch_average_age (l1 ++ l2) =
      ((calculate_batch_average_age l1).1 + (calculate_batch_average_age l2).1,
       (calculate_batch_average_age l1).2 + (calculate_batch_average_age l2).2) := by
  unfold calculate_batch_average_age
  rw [List.foldl_append, foldl_ageStep_shift]

lemma calculate_batch_average_age_eq_validAges (l : List Patient) :
    calculate_batch_average_age l = ((validAges l).sum, (validAges l).length) := by
  induction l with
  | nil => rfl
  | cons p l ih =>
      have h1 : calculate_batch_average_age (p :: l) = l.foldl ageStep (ageStep (0, 0) p) := rfl
      cases hp : parseAge p.age with
      | none =>
          rw [h1, show ageStep (0, 0) p = (0, 0) from by simp [ageStep, hp]]
          simpa [validAges, List.filterMap_cons, hp] using ih
      | some n =>
          rw [h1, show ageStep (0, 0) p = (n, 1) from by simp [ageStep, hp],
              foldl_ageStep_shift]
          have ih2 : l.foldl ageStep (0, 0) = ((validAges l).sum, (validAges l).length) := ih
          rw [ih2]
          simp [validAges, List.filterMap_cons, hp, Nat.add_comm]

lemma foldl_joinStep_shift (xs : List (ℤ × ℕ)) (acc : ℤ × ℕ) :
    xs.foldl joinStep acc =
      (acc.1 + (xs.foldl joinStep (0, 0)).1, acc.2 + (xs.foldl joinStep (0, 0)).2) := by
  induction xs generalizing acc with
  | nil => simp
  | cons x xs ih =>
      simp only [List.foldl_cons, joinStep]
      rw [ih (acc.1 + x.1, acc.2 + x.2), ih (0 + x.1, 0 + x.2)]
      simp [add_assoc]

lemma join_batchesAux (b : ℕ) (hb : b ≠ 0) :
    ∀ fuel (l : List Patient), l.length ≤ fuel →
      ((batchesAux fuel b l).map calculate_batch_average_age).foldl joinStep (0, 0) =
        calculate_batch_average_age l := by
  intro fuel
  induction fuel with
  | zero =>
      intro l hl
      have hnil : l = [] := List.eq_nil_of_length_eq_zero (Nat.le_zero.mp hl)
      subst hnil; rfl
  | succ fuel ih =>
      intro l hl
      cases l with
      | nil => rfl
      | cons p t =>
          rw [show batchesAux (fuel + 1) b (p :: t) =
                (p :: t).take b :: batchesAux fuel b ((p :: t).drop b) from rfl,
              List.map_cons, List.foldl_cons, foldl_joinStep_shift,
              ih ((p :: t).drop b) (by simp only [List.length_drop]; simp at hl ⊢; omega)]
          conv_rhs => rw [← List.take_append_drop b (p :: t)]
          rw [calculate_batch_average_age_append]
          simp [joinStep]

/-- The join of all batch results equals the single-pass fold over the whole
record list, for any batch size at least 1. -/
lemma join_batches_eq (b : ℕ) (hb : b ≠ 0) (l : List Patient) :
    ((batches b l).map calculate_batch_average_age).foldl joinStep (0, 0) =
      calculate_batch_average_age l := by
  rw [batches, if_neg hb]
  exact join_batchesAux b hb l.length l le_rfl

/-- Batched and single-pass aggregation agree for every batch size ≥ 1. -/
lemma average_age_eq_single (b : ℕ) (hb : b ≠ 0) (l : List Patient) :
    calculate_average_age b l = calculate_average_ages l := by
  by_cases hl : l = []
  · simp [calculate_average_age, calculate_average_ages, hl]
  · simp only [calculate_average_age, calculate_average_ages, hl, if_false]
    rw [join_batches_eq b hb]
    rfl

lemma calculate_average_ages_of_valid (l : List Patient)
    (h : (validAges l).length ≠ 0) :
    calculate_average_ages l =
      some (((validAges l).sum : ℚ) / ((validAges l).length : ℚ)) := by
  have hl : l ≠ [] := by
    intro e
    subst e
    simp [validAges] at h
  have hr : l.foldl ageStep (0, 0) = ((validAges l).sum, (validAges l).length) :=
    calculate_batch_average_age_eq_validAges l
  simp only [calculate_average_ages, hl, if_false, hr, h]

lemma createMany_spec :
    ∀ (inputs : List Patient) (db : DB), (∀ p ∈ inputs, p.age ≠ none) →
      createMany db inputs =
        ⟨db.rows ++ assignRows db.nextId inputs, db.nextId + inputs.length⟩ := by
  intro inputs
  induction inputs with
  | nil => intro db _; cases db; simp [createMany, assignRows]
  | cons p ps ih =>
      intro db h
      obtain ⟨a, ha⟩ := Option.ne_none_iff_exists.mp (h p (by simp))
      have hstep : (create_patient db p false).1 =
          ⟨db.rows ++ [⟨db.nextId, p.name, a, p.disease⟩], db.nextId + 1⟩ := by
        simp [create_patient, ← ha]
      have hrec : createMany db (p :: ps) =
          createMany ⟨db.rows ++ [⟨db.nextId, p.name, a, p.disease⟩], db.nextId + 1⟩ ps := by
        simp only [createMany, List.foldl_cons, hstep]
      rw [hrec, ih _ (fun q hq => h q (by simp [hq]))]
      simp only [assignRows, ← ha, Option.getD_some, DB.mk.injEq]
      refine ⟨by simp, by simp only [List.length_cons]; push_cast; ring⟩

lemma assignRows_map_fields :
    ∀ (l : List Patient) (n : ℤ), (∀ p ∈ l, p.age ≠ none) →
      (assignRows n l).map (fun r => (r.name, some r.age, r.disease)) =
        l.map (fun p => (p.name, p.age, p.disease)) := by
  intro l
  induction l with
  | nil => intro n _; rfl
  | cons p ps ih =>
      intro n h
      obtain ⟨a, ha⟩ := Option.ne_none_iff_exists.mp (h p (by simp))
      simp only [assignRows, List.map_cons, ← ha, Option.getD_some]
      rw [ih (n + 1) (fun q hq => h q (by simp [hq]))]

lemma assignRows_map_id :
    ∀ (l : List Patient) (n : ℤ),
      (assignRows n l).map Row.id =
        (List.range l.length).map (fun k : ℕ => n + (k : ℤ)) := by
  intro l
  induction l with
  | nil => intro n; rfl
  | cons p ps ih =>
      intro n
      simp only [assignRows, List.map_cons, List.length_cons, List.range_succ_eq_map,
                 List.map_map]
      congr 1
      · simp
      · rw [ih (n + 1)]
        apply List.map_congr_left
        intro k _
        simp only [Function.comp_apply]
        push_cast
        ring

lemma countP_id_zero (l : List Row) (i : ℤ) (h : ∀ r ∈ l, r.id ≠ i) :
    l.countP (fun r => decide (r.id = i)) = 0 := by
  rw [List.countP_eq_zero]
  intro r hr
  simp [h r hr]

lemma find_id_none (l : List Row) (i : ℤ) (h : ∀ r ∈ l, r.id ≠ i) :
    l.find? (fun r => decide (r.id = i)) = none := by
  rw [List.find?_eq_none]
  intro r hr
  simp [h r hr]

lemma countP_id_one :
    ∀ (l : List Row) (i : ℤ), (l.map Row.id).Nodup → (∃ r ∈ l, r.id = i) →
      l.countP (fun r => decide (r.id = i)) = 1 := by
  intro l
  induction l with
  | nil => intro i _ h; simp at h
  | cons r t ih =>
      intro i hnd hex
      rw [List.countP_cons]
      by_cases hr : r.id = i
      · have hz : t.countP (fun q => decide (q.id = i)) = 0 := by
          apply countP_id_zero
          intro q hq hqi
          have : r.id ∈ t.map Row.id := by
            rw [hr, ← hqi]
            exact List.mem_map_of_mem Row.id hq
          exact (List.nodup_cons.mp (by simpa using hnd)).1 this
        simp [hz, hr]
      · have hex2 : ∃ q ∈ t, q.id = i := by
          obtain ⟨q, hq, hqi⟩ := hex
          cases List.mem_cons.mp hq with
          | inl he => exact absurd (he ▸ hqi) hr
          | inr ht => exact ⟨q, ht, hqi⟩
        have := ih i (List.nodup_cons.mp (by simpa using hnd)).2 hex2
        simp [this, hr]

lemma update_patient_absent_aux (db : DB) (p : Patient) (fail : Bool)
    (h : ∀ r ∈ db.rows, p.id ≠ some r.id) :
    update_patient db p fail = (db, 0) := by
  cases fail with
  | true => rfl
  | false =>
      cases hid : p.id with
      | none => simp [update_patient, hid]
      | some i =>
          cases hage : p.age with
          | none => simp [update_patient, hid, hage]
          | some a =>
              have hcount : db.rows.countP (fun r => decide (r.id = i)) = 0 := by
                apply countP_id_zero
                intro r hr he
                exact h r hr (by rw [hid, he])
              have hpt : ∀ r ∈ db.rows,
                  (if r.id = i then (⟨r.id, p.name, a, p.disease⟩ : Row) else r) = r := by
                intro r hr
                rw [if_neg]
                intro he
                exact h r hr (by rw [hid, he])
              have hmap : db.rows.map (fun r =>
                  if r.id = i then (⟨r.id, p.name, a, p.disease⟩ : Row) else r) = db.rows := by
                rw [List.map_congr_left hpt]
                simp
              simp [update_patient, hid, hage, hcount, hmap]

lemma delete_patient_absent_aux (db : DB) (j : ℤ) (fail : Bool)
    (h : ∀ r ∈ db.rows, r.id ≠ j) :
    delete_patient db j fail = (db, 0) := by
  cases fail with
  | true => rfl
  | false =>
      have hfil : db.rows.filter (fun r => !decide (r.id = j)) = db.rows :=
        List.filter_eq_self.mpr (fun r hr => by simp [h r hr])
      simp [delete_patient, hfil, countP_id_zero _ j h]

lemma read_patient_absent_aux (db : DB) (j : ℤ) (fail : Bool)
    (h : ∀ r ∈ db.rows, r.id ≠ j) :
    read_patient_by_id db j fail = none := by
  cases fail with
  | true => rfl
  | false => simp [read_patient_by_id, find_id_none _ j h]

lemma countP_is_valid_age (l : List Patient) :
    l.countP (fun p => is_valid_age p.age) = (validAges l).length := by
  induction l with
  | nil => rfl
  | cons p t ih =>
      rw [List.countP_cons, ih]
      cases hp : parseAge p.age with
      | none => simp [validAges, List.filterMap_cons, hp, is_valid_age]
      | some n => simp [validAges, List.filterMap_cons, hp, is_valid_age]

/-- C1: the concurrent batched aggregation calculate_average_age and the
non-concurrent single-pass calculate_average_ages produce identical results
on every record set and every batch size at least 1 (in particular the
default 5): both are None exactly together, and otherwise the same
number. -/
theorem calculate_average_age_eq_calculate_average_ages
    (b : ℕ) (hb : 1 ≤ b) (l : List Patient) :
    calculate_average_age b l = calculate_average_ages l :=
  average_age_eq_single b (by omega) l

theorem calculate_average_age_eq_calculate_average_ages_witness :
    (1 : ℕ) ≤ 5 ∧
    calculate_average_age 5 exampleAges = calculate_average_ages exampleAges :=
  ⟨by decide, calculate_average_age_eq_calculate_average_ages 5 (by decide) exampleAges⟩

/-- C2: the result of calculate_average_age is invariant to batch size: any
two batch sizes at least 1 give the same result on a fixed record set. -/
theorem calculate_average_age_batch_size_invariant
    (l : List Patient) (b1 b2 : ℕ) (h1 : 1 ≤ b1) (h2 : 1 ≤ b2) :
    calculate_average_age b1 l = calculate_average_age b2 l := by
  rw [average_age_eq_single b1 (by omega) l, average_age_eq_single b2 (by omega) l]

theorem calculate_average_age_batch_size_invariant_witness :
    (1 : ℕ) ≤ 2 ∧ (1 : ℕ) ≤ 5 ∧
    calculate_average_age 2 exampleAges = calculate_average_age 5 exampleAges :=
  ⟨by decide, by decide,
   calculate_average_age_batch_size_invariant exampleAges 2 5 (by decide) (by decide)⟩

/-- C3: calculate_average_age excludes records whose age does not parse as
an integer and averages only the parseable ones; on the spec example with
ages 45, 32, 60 and one unparsable age the result is 137/3, whose rounding
to 2 decimals is 45.67; an unparsable age never aborts the computation
(the functions are total). -/
theorem calculate_average_age_excludes_unparsable :
    (∀ l : List Patient, (validAges l).length ≠ 0 →
        calculate_average_age 5 l =
          some (((validAges l).sum : ℚ) / ((validAges l).length : ℚ))) ∧
    calculate_average_age 5 exampleAges = some (137 / 3) ∧
    round2 (137 / 3) = 4567 / 100 := by
  have hgen : ∀ l : List Patient, (validAges l).length ≠ 0 →
      calculate_average_age 5 l =
        some (((validAges l).sum : ℚ) / ((validAges l).length : ℚ)) := by
    intro l h
    rw [average_age_eq_single 5 (by decide) l]
    exact calculate_average_ages_of_valid l h
  refine ⟨hgen, ?_, ?_⟩
  · rw [hgen exampleAges (by decide),
        show validAges exampleAges = [45, 32, 60] from by decide]
    norm_num
  · norm_num [round2, round_eq]

theorem calculate_average_age_excludes_unparsable_witness :
    (validAges exampleAges).length ≠ 0 ∧
    calculate_average_age 5 exampleAges =
      some (((validAges exampleAges).sum : ℚ) / ((validAges exampleAges).length : ℚ)) :=
  ⟨by decide, calculate_average_age_excludes_unparsable.1 exampleAges (by decide)⟩

/-- C4: on a record set that is empty or has no parseable age at all,
calculate_average_age returns None, which is distinct from the number
zero. -/
theorem calculate_average_age_no_valid_data
    (l : List Patient) (b : ℕ) (hb : 1 ≤ b)
    (h : (validAges l).length = 0) :
    calculate_average_age b l = none ∧ calculate_average_age b l ≠ some 0 := by
  have hnone : calculate_average_age b l = none := by
    rw [average_age_eq_single b (by omega) l]
    by_cases hl : l = []
    · simp [calculate_average_ages, hl]
    · have hr : l.foldl ageStep (0, 0) = ((validAges l).sum, (validAges l).length) :=
        calculate_batch_average_age_eq_validAges l
      simp only [calculate_average_ages, hl, if_false]
      rw [hr]
      simp [h]
  exact ⟨hnone, by rw [hnone]; simp⟩

theorem calculate_average_age_no_valid_data_witness :
    (1 : ℕ) ≤ 3 ∧ (validAges exampleNoValid).length = 0 ∧
    (calculate_average_age 3 exampleNoValid = none ∧
     calculate_average_age 3 exampleNoValid ≠ some 0) :=
  ⟨by decide, by decide,
   calculate_average_age_no_valid_data exampleNoValid 3 (by decide) (by decide)⟩

/-- C5: after any sequence of successful Create calls on an empty store,
ReadAll returns exactly the created records in insertion order, each with a
distinct store-assigned id (1, 2, 3, ... regardless of any caller-supplied
id); ReadAll on the empty store is the empty list, never null. -/
theorem create_then_read_all_roundtrip (inputs : List Patient)
    (h : ∀ p ∈ inputs, p.age ≠ none) :
    ((read_all_patients (createMany DB.empty inputs) false).map
        (fun p => (p.name, p.age, p.disease)) =
      inputs.map (fun p => (p.name, p.age, p.disease))) ∧
    ((read_all_patients (createMany DB.empty inputs) false).map Patient.id =
      (List.range inputs.length).map (fun k : ℕ => some (1 + (k : ℤ)))) ∧
    ((read_all_patients (createMany DB.empty inputs) false).map Patient.id).Nodup ∧
    read_all_patients DB.empty false = [] := by
  have hrows : (createMany DB.empty inputs).rows = assignRows 1 inputs := by
    rw [createMany_spec inputs DB.empty h]
    simp [DB.empty]
  have hra : read_all_patients (createMany DB.empty inputs) false =
      (assignRows 1 inputs).map rowToPatient := by
    simp [read_all_patients, hrows]
  have hid : (read_all_patients (createMany DB.empty inputs) false).map Patient.id =
      (List.range inputs.length).map (fun k : ℕ => some (1 + (k : ℤ))) := by
    rw [hra, List.map_map]
    have h1 : (assignRows 1 inputs).map (Patient.id ∘ rowToPatient) =
        ((assignRows 1 inputs).map Row.id).map some := by
      rw [List.map_map]
      rfl
    rw [h1, assignRows_map_id inputs 1, List.map_map]
    rfl
  refine ⟨?_, hid, ?_, rfl⟩
  · rw [hra, List.map_map]
    have h2 : (assignRows 1 inputs).map
        ((fun p : Patient => (p.name, p.age, p.disease)) ∘ rowToPatient) =
        (assignRows 1 inputs).map (fun r => (r.name, some r.age, r.disease)) := rfl
    rw [h2]
    exact assignRows_map_fields inputs 1 h
  · rw [hid]
    refine (List.nodup_range inputs.length).map ?_
    intro a b hab
    simpa using hab

theorem create_then_read_all_roundtrip_witness :
    (∀ p ∈ exampleInputs, p.age ≠ none) ∧
    (((read_all_patients (createMany DB.empty exampleInputs) false).map
        (fun p => (p.name, p.age, p.disease)) =
      exampleInputs.map (fun p => (p.name, p.age, p.disease))) ∧
    ((read_all_patients (createMany DB.empty exampleInputs) false).map Patient.id =
      (List.range exampleInputs.length).map (fun k : ℕ => some (1 + (k : ℤ)))) ∧
    ((read_all_patients (createMany DB.empty exampleInputs) false).map Patient.id).Nodup ∧
    read_all_patients DB.empty false = []) :=
  ⟨by decide, create_then_read_all_roundtrip exampleInputs (by decide)⟩

/-- C6: Update with an id absent from the store returns 0 rows affected,
leaves every stored record unchanged and never creates a row, whether or
not the storage layer fails. -/
theorem update_patient_absent_id (db : DB) (p : Patient) (fail : Bool)
    (h : ∀ r ∈ db.rows, p.id ≠ some r.id) :
    update_patient db p fail = (db, 0) :=
  update_patient_absent_aux db p fail h

theorem update_patient_absent_id_witness :
    (∀ r ∈ exampleDB.rows, (⟨some 99, "Zed", some "33", "Flu"⟩ : Patient).id ≠ some r.id) ∧
    update_patient exampleDB ⟨some 99, "Zed", some "33", "Flu"⟩ false = (exampleDB, 0) :=
  ⟨by decide,
   update_patient_absent_id exampleDB ⟨some 99, "Zed", some "33", "Flu"⟩ false (by decide)⟩

/-- C7: for an id present in the store, Delete removes it reporting 1 row,
ReadById afterwards reports NotFound, and a second Delete of the same id
reports 0 rows and changes nothing: Delete on an absent id is not an
error. -/
theorem delete_read_delete_idempotent (db : DB) (i : ℤ)
    (hnd : (db.rows.map Row.id).Nodup) (hmem : ∃ r ∈ db.rows, r.id = i) :
    (delete_patient db i false).2 = 1 ∧
    read_patient_by_id (delete_patient db i false).1 i false = none ∧
    (delete_patient (delete_patient db i false).1 i false).2 = 0 ∧
    (delete_patient (delete_patient db i false).1 i false).1 =
      (delete_patient db i false).1 := by
  have habs : ∀ r ∈ db.rows.filter (fun r => decide (¬ r.id = i)), r.id ≠ i := by
    intro r hr
    have := (List.mem_filter.mp hr).2
    simpa using this
  have hdel1 : (delete_patient db i false).1 =
      ⟨db.rows.filter (fun r => decide (¬ r.id = i)), db.nextId⟩ := rfl
  have hdel2 : delete_patient (delete_patient db i false).1 i false =
      ((delete_patient db i false).1, 0) := by
    rw [hdel1]
    exact delete_patient_absent_aux _ i false habs
  refine ⟨?_, ?_, ?_, ?_⟩
  · simpa [delete_patient] using countP_id_one db.rows i hnd hmem
  · rw [hdel1]
    exact read_patient_absent_aux _ i false habs
  · rw [hdel2]
  · rw [hdel2]

theorem delete_read_delete_idempotent_witness :
    (exampleDB.rows.map Row.id).Nodup ∧ (∃ r ∈ exampleDB.rows, r.id = 3) ∧
    ((delete_patient exampleDB 3 false).2 = 1 ∧
     read_patient_by_id (delete_patient exampleDB 3 false).1 3 false = none ∧
     (delete_patient (delete_patient exampleDB 3 false).1 3 false).2 = 0 ∧
     (delete_patient (delete_patient exampleDB 3 false).1 3 false).1 =
       (delete_patient exampleDB 3 false).1) :=
  ⟨by decide, by decide, delete_read_delete_idempotent exampleDB 3 (by decide) (by decide)⟩

/-- C8: a storage failure is indistinguishable from absence at the public
interface: under a storage exception update and delete return 0 and read
returns none, exactly the values these operations return for an id that is
not in the store. -/
theorem storage_failure_masks_absence (db : DB) (p : Patient) (i : ℤ) :
    (update_patient db p true).2 = 0 ∧
    (delete_patient db i true).2 = 0 ∧
    read_patient_by_id db i true = none ∧
    (∀ j : ℤ, (∀ r ∈ db.rows, r.id ≠ j) →
      delete_patient db j false = (db, 0) ∧ read_patient_by_id db j false = none) ∧
    (∀ q : Patient, (∀ r ∈ db.rows, q.id ≠ some r.id) →
      update_patient db q false = (db, 0)) := by
  refine ⟨rfl, rfl, rfl, ?_, ?_⟩
  · intro j hj
    exact ⟨delete_patient_absent_aux db j false hj, read_patient_absent_aux db j false hj⟩
  · intro q hq
    exact update_patient_absent_aux db q false hq

theorem storage_failure_masks_absence_witness :
    ((update_patient exampleDB ⟨some 1, "A", some "20", "Flu"⟩ true).2 = 0 ∧
     (delete_patient exampleDB 1 true).2 = 0 ∧
     read_patient_by_id exampleDB 1 true = none) ∧
    (delete_patient exampleDB 77 false = (exampleDB, 0) ∧
     read_patient_by_id exampleDB 77 false = none) ∧
    update_patient exampleDB ⟨some 77, "B", some "21", "Flu"⟩ false = (exampleDB, 0) := by
  have h := storage_failure_masks_absence exampleDB ⟨some 1, "A", some "20", "Flu"⟩ 1
  exact ⟨⟨h.1, h.2.1, h.2.2.1⟩,
         h.2.2.2.1 77 (by decide),
         h.2.2.2.2 ⟨some 77, "B", some "21", "Flu"⟩ (by decide)⟩

/-- C9: calculate_batch_average_age is total on arbitrary age fields
(strings or None) and returns exactly (sum of the parseable ages, count of
the parseable ages), with the count bounded by the list length. -/
theorem calculate_batch_average_age_total (l : List Patient) :
    calculate_batch_average_age l = ((validAges l).sum, (validAges l).length) ∧
    (validAges l).length ≤ l.length :=
  ⟨calculate_batch_average_age_eq_validAges l,
   List.length_filterMap_le (fun p : Patient => parseAge p.age) l⟩

/-- C10: in the average-age HTTP response, patient_count is the number of
stored records whose age passes the is_valid_age test, total_patients is
the total number of stored records, average_age is the aggregation result
rounded to 2 decimals, and patient_count coincides with the number of ages
actually averaged — the reported average is the mean of exactly
patient_count values. -/
theorem get_average_age_response (db : DB)
    (h : (validAges (read_all_patients db false)).length ≠ 0) :
    get_average_age db =
      some (round2 (((validAges (read_all_patients db false)).sum : ℚ) /
              ((validAges (read_all_patients db false)).length : ℚ)),
            (read_all_patients db false).countP (fun p => is_valid_age p.age),
            (read_all_patients db false).length) ∧
    (read_all_patients db false).countP (fun p => is_valid_age p.age) =
      (validAges (read_all_patients db false)).length := by
  have havg := calculate_average_ages_of_valid (read_all_patients db false) h
  exact ⟨by simp only [get_average_age, havg], countP_is_valid_age _⟩

theorem get_average_age_response_witness :
    get_average_age exampleDB = some (4567 / 100, 3, 4) := by
  have h := get_average_age_response exampleDB (by decide)
  rw [h.1, show validAges (read_all_patients exampleDB false) = [45, 32, 60] from by decide,
      show (read_all_patients exampleDB false).countP (fun p => is_valid_age p.age) = 3
        from by decide,
      show (read_all_patients exampleDB false).length = 4 from by decide]
  norm_num [round2, round_eq]

end HMS
